import Mathlib

/-!
Verification of the `rt` ray-tracing kernel (package `rt`, file modelled from
the repository source).  The geometry is embedded over `ℚ` (exact arithmetic
for the float64 code); `math.Sqrt` appears only through `Real.sqrt` in
`ℝ`-valued definitions and statements.
-/

set_option maxHeartbeats 1000000

namespace RT

/-- `P3` is a 3d point (source: `type P3 struct { X, Y, Z float64 }`). -/
structure P3 where
  X : ℚ
  Y : ℚ
  Z : ℚ
deriving DecidableEq, Repr

/-- `Origin` is the 0, 0, 0 point. -/
def Origin : P3 := ⟨0, 0, 0⟩

/-- `Epsilon` is our small value (source: `var Epsilon = 1e-6`). -/
def Epsilon : ℚ := 1 / 1000000

/-- `Add` adds two vectors. -/
def P3.Add (p q : P3) : P3 := ⟨p.X + q.X, p.Y + q.Y, p.Z + q.Z⟩

/-- `Sub` subtracts two vectors. -/
def P3.Sub (p q : P3) : P3 := ⟨p.X - q.X, p.Y - q.Y, p.Z - q.Z⟩

/-- Squared Euclidean norm: the radicand `p.X*p.X + p.Y*p.Y + p.Z*p.Z`
inside the source's `Len`. -/
def P3.lenSq (p : P3) : ℚ := p.X * p.X + p.Y * p.Y + p.Z * p.Z

/-- `Len` returns the length of a vector
(source: `math.Sqrt(p.X*p.X + p.Y*p.Y + p.Z*p.Z)`), modelled in `ℝ`. -/
noncomputable def P3.len (p : P3) : ℝ := Real.sqrt ((p.lenSq : ℚ) : ℝ)

/-- `Scale` scales the vector. -/
def P3.Scale (p : P3) (s : ℚ) : P3 := ⟨p.X * s, p.Y * s, p.Z * s⟩

/-- `Dot` returns the dot product of two vectors. -/
def P3.Dot (p q : P3) : ℚ := p.X * q.X + p.Y * q.Y + p.Z * q.Z

/-- `Cross` returns the cross product of two vectors. -/
def P3.Cross (p q : P3) : P3 :=
  ⟨p.Y * q.Z - p.Z * q.Y, p.Z * q.X - p.X * q.Z, p.X * q.Y - p.Y * q.X⟩

/-- `R3` is a ray - it has a 3d location and a 3d direction. -/
structure R3 where
  At : P3
  Dir : P3
deriving DecidableEq, Repr

/-- `T3` is a 3d triangle. -/
structure T3 where
  A : P3
  B : P3
  C : P3
deriving DecidableEq, Repr

/-- `normal` of a triangle: `cross(B−A, C−A)`. -/
def T3.normal (t3 : T3) : P3 := ((t3.B.Sub t3.A).Cross (t3.C.Sub t3.A))

/-- `IntersectUV` returns true/false for an intercept and the U-V co-ords in
the triangle if true (and position).  Direct embedding of the source's
Möller–Trumbore test, which takes both edges relative to vertex `C`. -/
def T3.IntersectUV (t3 : T3) (r : R3) : Bool × ℚ × ℚ × P3 :=
  -- Triangle edges sharing A (source comment; the edges in fact share C)
  let e1 := t3.A.Sub t3.C
  let e2 := t3.B.Sub t3.C
  -- Determinant
  let P := r.Dir.Cross e2
  let det := P.Dot e1
  if |det| < Epsilon then
    -- Parallel
    (false, 0, 0, Origin)
  else
    let invDet := 1 / det
    let T := r.At.Sub t3.C
    let u := (T.Dot P) * invDet
    if u < 0 ∨ u > 1 then
      (false, 0, 0, Origin)
    else
      let Q := T.Cross e1
      let v := (r.Dir.Dot Q) * invDet
      if v < 0 ∨ u + v > 1 then
        (false, 0, 0, Origin)
      else
        let t := (e2.Dot Q) * invDet
        if t > Epsilon then
          (true, u, v, (t3.C.Add (e1.Scale u)).Add (e2.Scale v))
        else
          (false, 0, 0, Origin)

/-- Named subterm of `IntersectUV`: edge `e1 = A − C`. -/
def mtE1 (t3 : T3) : P3 := t3.A.Sub t3.C

/-- Named subterm of `IntersectUV`: edge `e2 = B − C`. -/
def mtE2 (t3 : T3) : P3 := t3.B.Sub t3.C

/-- Named subterm of `IntersectUV`: `P = dir × e2`. -/
def mtP (t3 : T3) (r : R3) : P3 := r.Dir.Cross (mtE2 t3)

/-- Named subterm of `IntersectUV`: `det = P · e1`. -/
def mtDet (t3 : T3) (r : R3) : ℚ := (mtP t3 r).Dot (mtE1 t3)

/-- Named subterm of `IntersectUV`: `T = origin − C`. -/
def mtT (t3 : T3) (r : R3) : P3 := r.At.Sub t3.C

/-- Named subterm of `IntersectUV`: `u = (T · P) · invDet`. -/
def mtU (t3 : T3) (r : R3) : ℚ := ((mtT t3 r).Dot (mtP t3 r)) * (1 / mtDet t3 r)

/-- Named subterm of `IntersectUV`: `Q = T × e1`. -/
def mtQ (t3 : T3) (r : R3) : P3 := (mtT t3 r).Cross (mtE1 t3)

/-- Named subterm of `IntersectUV`: `v = (dir · Q) · invDet`. -/
def mtV (t3 : T3) (r : R3) : ℚ := (r.Dir.Dot (mtQ t3 r)) * (1 / mtDet t3 r)

/-- Named subterm of `IntersectUV`: `t = (e2 · Q) · invDet`. -/
def mtTpar (t3 : T3) (r : R3) : ℚ := ((mtE2 t3).Dot (mtQ t3 r)) * (1 / mtDet t3 r)

lemma IntersectUV_eq (t3 : T3) (r : R3) :
    t3.IntersectUV r =
      if |mtDet t3 r| < Epsilon then (false, 0, 0, Origin)
      else if mtU t3 r < 0 ∨ mtU t3 r > 1 then (false, 0, 0, Origin)
      else if mtV t3 r < 0 ∨ mtU t3 r + mtV t3 r > 1 then (false, 0, 0, Origin)
      else if mtTpar t3 r > Epsilon then
        (true, mtU t3 r, mtV t3 r,
          (t3.C.Add ((mtE1 t3).Scale (mtU t3 r))).Add ((mtE2 t3).Scale (mtV t3 r)))
      else (false, 0, 0, Origin) := rfl

/-- `color.NRGBA`: non-alpha-premultiplied 8-bit colour, the only concrete
colour type the kernel builds. -/
structure Color where
  R : ℕ
  G : ℕ
  B : ℕ
  A : ℕ
deriving DecidableEq, Repr

/-- `color.NRGBA.RGBA()` from Go's standard library: each 8-bit channel `c`
becomes `(c | c<<8) * A / 0xff` (16-bit, alpha-premultiplied); alpha becomes
`A | A<<8`.  `c | c<<8 = c * 0x101` for 8-bit `c`. -/
def Color.rgba (c : Color) : ℕ × ℕ × ℕ × ℕ :=
  (c.R * 0x101 * c.A / 0xff, c.G * 0x101 * c.A / 0xff, c.B * 0x101 * c.A / 0xff,
    c.A * 0x101)

/-- A decoded texture, modelled by what the kernel reads from `image.Image`:
its pixel bounds and the pixel lookup `At`. -/
structure Image where
  minX : ℤ
  minY : ℤ
  maxX : ℤ
  maxY : ℤ
  At : ℤ → ℤ → Color

/-- `Hit` represents a ray hit on an item.  (The Go zero value `Hit{}` has a
nil `Colour` interface; it is modelled as the zero colour, which the kernel
never reads on a miss.) -/
structure Hit where
  At : P3
  Normal : P3
  Colour : Color
deriving DecidableEq, Repr

/-- The Go zero value `Hit{}` returned on a miss. -/
def emptyHit : Hit := ⟨Origin, Origin, ⟨0, 0, 0, 0⟩⟩

/-- `Intersect` returns whether a ray intersects this triangle (and if so,
the colour, position and normal). -/
def T3.Intersect (t3 : T3) (r : R3) : Bool × Hit × ℤ :=
  -- hit, _, _, p := t3.IntersectUV(r)
  let res := t3.IntersectUV r
  if res.1 then (true, ⟨res.2.2.2, t3.normal, ⟨128, 0, 0, 255⟩⟩, 1)
  else (false, emptyHit, 1)

/-- Go's `int(x)` conversion from float64: truncation toward zero. -/
def goInt (q : ℚ) : ℤ := if 0 ≤ q then ⌊q⌋ else -⌊-q⌋

/-- The `uvToColor` closure of `Kite3.Intersect`: with `w`/`h` the pixel
width/height of the bounds, sample pixel
`(bounds.Min.X + int(w*u), bounds.Min.Y + int(h*v))`. -/
def sampleImage (img : Image) (u v : ℚ) : Color :=
  let w : ℚ := ((img.maxX - img.minX : ℤ) : ℚ)
  let h : ℚ := ((img.maxY - img.minY : ℤ) : ℚ)
  img.At (img.minX + goInt (w * u)) (img.minY + goInt (h * v))

/-- `Kite3` is a 2d kite. -/
structure Kite3 where
  TA : T3
  TB : T3
  Image : Image

/-- `NewKite3` returns a kite with opposite corners A and B, and C+C'
(C' reflected in AB). -/
def NewKite3 (A B C : P3) (img : Image) : Kite3 :=
  let CA := A.Sub C
  let CB := B.Sub C
  let C2 := (C.Add CA).Add CB
  ⟨⟨A, B, C⟩, ⟨A, B, C2⟩, img⟩

/-- `Intersect` returns whether a ray intersects this kite. -/
def Kite3.Intersect (k3 : Kite3) (r : R3) : Bool × Hit × ℤ :=
  -- hit, u, v, p := k3.TA.IntersectUV(r)
  let resA := k3.TA.IntersectUV r
  if resA.1 then
    (resA.1, ⟨resA.2.2.2, k3.TA.normal, sampleImage k3.Image resA.2.1 resA.2.2.1⟩, 1)
  else
    -- hit, u, v, p = k3.TB.IntersectUV(r); u, v = 1-v, 1-u
    let resB := k3.TB.IntersectUV r
    let u := 1 - resB.2.2.1
    let v := 1 - resB.2.1
    if resB.1 then (resB.1, ⟨resB.2.2.2, k3.TB.normal, sampleImage k3.Image u v⟩, 2)
    else (false, emptyHit, 2)

/-- An `Item` is something visible which can be added to a scene: a leaf
primitive or a `CompositeItem` (whose `children` slice is `none` while nil,
before any `AddItem`). -/
inductive Item where
  | tri (t3 : T3)
  | kite (k3 : Kite3)
  | comp (children : Option (List Item))

instance : Inhabited P3 := ⟨Origin⟩

instance : Inhabited Item := ⟨Item.comp none⟩

/-- One step of the nearest-hit scan
`if h.At.Len() < nearestHit.At.Len() { nearestHit = h }`.  Comparing `Len`
values (square roots) is equivalent to comparing the rational squared
lengths; see `P3.len_lt_len_iff`. -/
def nearestHitStep (nearestHit h : Hit) : Hit :=
  if h.At.lenSq < nearestHit.At.lenSq then h else nearestHit

/-- The aggregation performed by `CompositeItem.Intersect` after all children
have answered: total the test counts, keep the hits, and scan them for the
one nearest the world origin starting from `hits[0]`. -/
def compCombine (rs : List (Bool × Hit × ℤ)) : Bool × Hit × ℤ :=
  let totalTests : ℤ := rs.foldl (fun acc x => acc + x.2.2) 0
  let hits : List Hit := (rs.filter (fun x => x.1)).map (fun x => x.2.1)
  match hits with
  | [] => (false, emptyHit, totalTests)
  | h0 :: rest => (true, (h0 :: rest).foldl nearestHitStep h0, totalTests)

mutual

/-- The `Item.Intersect` capability.  A panic (`panic("Null children")`) is
modelled as `Except.error`. -/
def Item.intersect : Item → R3 → Except String (Bool × Hit × ℤ)
  | .tri t3, r => .ok (t3.Intersect r)
  | .kite k3, r => .ok (k3.Intersect r)
  | .comp none, _ => .error "Null children"
  | .comp (some cs), r => (intersectList cs r).map compCombine

/-- The child loop of `CompositeItem.Intersect`: query every child in order,
propagating a panic. -/
def intersectList : List Item → R3 → Except String (List (Bool × Hit × ℤ))
  | [], _ => .ok []
  | c :: cs, r => do
      let x ← c.intersect r
      let xs ← intersectList cs r
      .ok (x :: xs)

end

/-- `CompositeItem.Intersect` on a composite with the given `children`
slice. -/
def compositeIntersect (children : Option (List Item)) (ray : R3) :
    Except String (Bool × Hit × ℤ) :=
  match children with
  | none => .error "Null children"
  | some cs => (intersectList cs ray).map compCombine

lemma Item.intersect_comp (c : Option (List Item)) (r : R3) :
    (Item.comp c).intersect r = compositeIntersect c r := by
  cases c <;> rfl

/-! Unfolding equations for the mutual recursion, for use with `simp`. -/

lemma Item.intersect_tri (t3 : T3) (r : R3) :
    Item.intersect (.tri t3) r = .ok (t3.Intersect r) := rfl

lemma Item.intersect_kite (k3 : Kite3) (r : R3) :
    Item.intersect (.kite k3) r = .ok (k3.Intersect r) := rfl

lemma intersectList_nil (r : R3) : intersectList [] r = .ok [] := rfl

lemma intersectList_cons (c : Item) (cs : List Item) (r : R3) :
    intersectList (c :: cs) r =
      (c.intersect r).bind fun x =>
        (intersectList cs r).bind fun xs => .ok (x :: xs) := rfl

lemma except_bind_ok {α β : Type} (a : α) (f : α → Except String β) :
    (Except.ok a : Except String α).bind f = f a := rfl

lemma except_map_ok {α β : Type} (a : α) (f : α → β) :
    (Except.ok a : Except String α).map f = .ok (f a) := rfl

/-- `Light` represents a light source. -/
structure Light where
  At : P3
  Colour : Color

/-- `Scene` contains the items, lighting and viewport; it embeds
`CompositeItem`, so `children` is its (initially nil) child slice. -/
structure Scene where
  children : Option (List Item)
  viewerDist : ℚ
  screenDist : ℚ
  lights : List Light

/-- Truncation toward zero of a real, Go's float64 → unsigned-int
conversion (defined for the nonnegative values the kernel produces). -/
noncomputable def realTrunc (x : ℝ) : ℤ := if 0 ≤ x then ⌊x⌋ else -⌊-x⌋

/-- `Scene.illumination`. -/
noncomputable def Scene.illumination (s : Scene) (hit : Hit) : Color :=
  -- In the range 0->0xffff: r, g, b, _ := hit.Colour.RGBA()
  let rgba := hit.Colour.rgba
  let incidence : ℝ := s.lights.foldl
    (fun incidence light =>
      let vlight := hit.At.Sub light.At
      incidence + |((vlight.Dot hit.Normal : ℚ) : ℝ) / vlight.len / hit.Normal.len|)
    0
  let incidence := incidence / (s.lights.length : ℝ)
  let toUint : ℕ → ℕ := fun v => (realTrunc ((v : ℝ) * incidence / 0xffff * 256)).toNat
  ⟨toUint rgba.1, toUint rgba.2.1, toUint rgba.2.2.1, 255⟩

/-- `Scene.ambient`. -/
def Scene.ambient (_s : Scene) (_r : R3) : Color := ⟨0, 0, 0, 255⟩

/-- `Scene.Render`. -/
noncomputable def Scene.Render (s : Scene) (x y : ℚ) : Except String (Color × ℤ) := do
  let ray : R3 := ⟨⟨0, 0, s.viewerDist⟩, ⟨x / s.screenDist, y / s.screenDist, 1⟩⟩
  let (intersects, h, numTests) ← compositeIntersect s.children ray
  if intersects then pure (s.illumination h, numTests)
  else pure (s.ambient ray, numTests)

/-- The helper-vector selection at the start of `Circle.Points`:
`v := P3{1,0,0}; if v.Dot(c.axis) < Epsilon { v = P3{0,1,0} }`. -/
def circleHelperVector (axis : P3) : P3 :=
  let v : P3 := ⟨1, 0, 0⟩
  if v.Dot axis < Epsilon then ⟨0, 1, 0⟩ else v

/-- `gridToKites`: one kite per grid cell, built from
`row[j]`, `next[(j+1)%numCols]`, `row[(j+1)%numCols]` where
`next = grid[(i+1)%numRows]`.  (On an empty grid Go's `grid[0]` would
panic; `headD` stands in, and that case is unreachable from
`Torus.buildItems`.) -/
def gridToKites (grid : List (List P3)) (img : Image) : List Item :=
  let numRows := grid.length
  let numCols := (grid.headD []).length
  (List.range numRows).flatMap (fun i =>
    let row := grid.getD i []
    let next := grid.getD ((i + 1) % numRows) []
    (List.range row.length).map (fun j =>
      Item.kite (NewKite3 (row.getD j Origin) (next.getD ((j + 1) % numCols) Origin)
        (row.getD ((j + 1) % numCols) Origin) img)))

/-- Modelled from the spec: the alternate vertex-order variant of the
triangle test, with edge vectors taken relative to `A` (`e1 = B−A`,
`e2 = C−A`) and hit position `A + e1·u + e2·v`, as §4.2 describes.  The
repository's `T3.IntersectUV` is the variant relative to `C`. -/
def T3.IntersectUVRelA (t3 : T3) (r : R3) : Bool × ℚ × ℚ × P3 :=
  let e1 := t3.B.Sub t3.A
  let e2 := t3.C.Sub t3.A
  let P := r.Dir.Cross e2
  let det := P.Dot e1
  if |det| < Epsilon then
    (false, 0, 0, Origin)
  else
    let invDet := 1 / det
    let T := r.At.Sub t3.A
    let u := (T.Dot P) * invDet
    if u < 0 ∨ u > 1 then
      (false, 0, 0, Origin)
    else
      let Q := T.Cross e1
      let v := (r.Dir.Dot Q) * invDet
      if v < 0 ∨ u + v > 1 then
        (false, 0, 0, Origin)
      else
        let t := (e2.Dot Q) * invDet
        if t > Epsilon then
          (true, u, v, (t3.A.Add (e1.Scale u)).Add (e2.Scale v))
        else
          (false, 0, 0, Origin)

/-- Named subterm of `IntersectUVRelA`: `det`. -/
def maDet (t3 : T3) (r : R3) : ℚ := (r.Dir.Cross (t3.C.Sub t3.A)).Dot (t3.B.Sub t3.A)

/-- Named subterm of `IntersectUVRelA`: `u`. -/
def maU (t3 : T3) (r : R3) : ℚ :=
  ((r.At.Sub t3.A).Dot (r.Dir.Cross (t3.C.Sub t3.A))) * (1 / maDet t3 r)

/-- Named subterm of `IntersectUVRelA`: `v`. -/
def maV (t3 : T3) (r : R3) : ℚ :=
  (r.Dir.Dot ((r.At.Sub t3.A).Cross (t3.B.Sub t3.A))) * (1 / maDet t3 r)

/-- Named subterm of `IntersectUVRelA`: `t`. -/
def maTpar (t3 : T3) (r : R3) : ℚ :=
  ((t3.C.Sub t3.A).Dot ((r.At.Sub t3.A).Cross (t3.B.Sub t3.A))) * (1 / maDet t3 r)

lemma IntersectUVRelA_eq (t3 : T3) (r : R3) :
    t3.IntersectUVRelA r =
      if |maDet t3 r| < Epsilon then (false, 0, 0, Origin)
      else if maU t3 r < 0 ∨ maU t3 r > 1 then (false, 0, 0, Origin)
      else if maV t3 r < 0 ∨ maU t3 r + maV t3 r > 1 then (false, 0, 0, Origin)
      else if maTpar t3 r > Epsilon then
        (true, maU t3 r, maV t3 r,
          (t3.A.Add ((t3.B.Sub t3.A).Scale (maU t3 r))).Add
            ((t3.C.Sub t3.A).Scale (maV t3 r)))
      else (false, 0, 0, Origin) := rfl

/-! ### Bridging lemmas: the `Len` order is the squared-length order -/

lemma P3.lenSq_nonneg (p : P3) : 0 ≤ p.lenSq := by
  unfold P3.lenSq
  have hx := mul_self_nonneg p.X
  have hy := mul_self_nonneg p.Y
  have hz := mul_self_nonneg p.Z
  linarith

/-- Comparing the source's `Len` values (square roots) is the same as
comparing the rational squared lengths, so `nearestHitStep` is a faithful
embedding of `h.At.Len() < nearestHit.At.Len()`. -/
lemma P3.len_lt_len_iff (p q : P3) : p.len < q.len ↔ p.lenSq < q.lenSq := by
  unfold P3.len
  rw [Real.sqrt_lt_sqrt_iff (by exact_mod_cast p.lenSq_nonneg)]
  exact_mod_cast Iff.rfl

lemma P3.len_le_len (p q : P3) (h : p.lenSq ≤ q.lenSq) : p.len ≤ q.len := by
  unfold P3.len
  exact Real.sqrt_le_sqrt (by exact_mod_cast h)

/-! ### Concrete fixtures shared by several witnesses -/

/-- A triangle in the plane `z = 1`. -/
def triZ1 : T3 := ⟨⟨0, 0, 1⟩, ⟨1, 0, 1⟩, ⟨0, 1, 1⟩⟩

/-- A ray through `(1/10, 7/10)` straight along `+z`. -/
def rayZ1 : R3 := ⟨⟨1/10, 7/10, 0⟩, ⟨0, 0, 1⟩⟩

/-- A texture whose pixel colour records its own pixel coordinates, over
bounds `[0,2]×[0,2]`. -/
def imgCoord : Image := ⟨0, 0, 2, 2, fun x y => ⟨x.toNat, y.toNat, 0, 255⟩⟩

/-! ### C10 -/

/-- C10: `CompositeItem.Intersect` on a composite whose children slice is
still nil panics with "Null children" (modelled as `Except.error`) instead
of reporting no-hit, and `Scene.Render` on a scene with no items added
therefore fails for every screen coordinate rather than returning the
ambient colour. -/
theorem composite_nil_children_panics :
    ∀ (r : R3) (vd sd : ℚ) (lights : List Light) (x y : ℚ),
      compositeIntersect none r = .error "Null children" ∧
      Scene.Render ⟨none, vd, sd, lights⟩ x y = .error "Null children" := by
  intro r vd sd lights x y
  exact ⟨rfl, rfl⟩

/-! ### C6 -/

/-- C6 (claim is right, code is wrong): the helper-vector guard in
`Circle.Points` is inverted.  Evaluated at the failing input
`axis = (1,0,0)` (a unit axis, directly reachable through `NewTorus`), the
guard `v.Dot(axis) < Epsilon` is false (the dot product is 1), so the code
keeps the helper `(1,0,0)`, which is exactly parallel to the axis, and the
cross product `axis × helper` degenerates to the zero vector — contradicting
both the claim and the code's own comment
"Too close to parallel, choose another starting vector". -/
theorem circleHelper_parallel_axis_degenerates :
    circleHelperVector ⟨1, 0, 0⟩ = ⟨1, 0, 0⟩ ∧
      P3.Cross ⟨1, 0, 0⟩ (circleHelperVector ⟨1, 0, 0⟩) = ⟨0, 0, 0⟩ := by
  constructor <;> norm_num [circleHelperVector, P3.Dot, P3.Cross, Epsilon]

/-! ### C5 -/

/-- C5: `Scene.Render` casts the primary ray with origin
`(0, 0, viewerDistance)` and unnormalised direction
`(x/screenDistance, y/screenDistance, 1)`, and when the scene's composite
root reports no hit it returns the fixed ambient colour black
(`R=G=B=0`, alpha opaque) together with the accumulated test count. -/
theorem render_miss_returns_ambient_black (s : Scene) (x y : ℚ) (h : Hit) (n : ℤ)
    (hmiss : compositeIntersect s.children
      ⟨⟨0, 0, s.viewerDist⟩, ⟨x / s.screenDist, y / s.screenDist, 1⟩⟩ = .ok (false, h, n)) :
    s.Render x y = .ok (⟨0, 0, 0, 255⟩, n) := by
  simp only [Scene.Render]
  rw [hmiss]
  rfl

/-- Witness for C5: a scene holding one triangle that the primary ray
through screen coordinate `(0,0)` misses renders to ambient black with one
leaf test. -/
theorem render_miss_returns_ambient_black_witness :
    Scene.Render ⟨some [Item.tri ⟨⟨5, 5, 1⟩, ⟨6, 5, 1⟩, ⟨5, 6, 1⟩⟩], 0, 1, []⟩ 0 0 =
      .ok (⟨0, 0, 0, 255⟩, 1) := by
  refine render_miss_returns_ambient_black _ 0 0 emptyHit 1 ?_
  norm_num [compositeIntersect, intersectList_cons, intersectList_nil,
    Item.intersect_tri, except_bind_ok, except_map_ok, T3.Intersect,
    T3.IntersectUV, compCombine, nearestHitStep, P3.lenSq,
    P3.Dot, P3.Cross, P3.Sub, P3.Add, P3.Scale,
    Epsilon, Origin, emptyHit]

/-! ### C3 / C7: kite intersection -/

/-- A uniform texture over one pixel. -/
def imgUniform : Image := ⟨0, 0, 1, 1, fun _ _ => ⟨10, 20, 30, 255⟩⟩

/-- The kite with opposite corners `(0,0,1)`, `(1,1,1)` and apex `(0,1,1)`
(so TB's apex is `(1,0,1)`). -/
def kiteEx : Kite3 := NewKite3 ⟨0, 0, 1⟩ ⟨1, 1, 1⟩ ⟨0, 1, 1⟩ imgUniform

/-- A ray along `+z` through `(7/10, 3/10)`: inside TB, outside TA. -/
def rayKite : R3 := ⟨⟨7/10, 3/10, 0⟩, ⟨0, 0, 1⟩⟩

/-- Case analysis of `Kite3.Intersect` in terms of the two triangle results
(shared by the kite claims). -/
lemma kite_intersect_cases (k3 : Kite3) (r : R3)
    (hA hB : Bool) (uA vA uB vB : ℚ) (pA pB : P3)
    (eA : k3.TA.IntersectUV r = (hA, uA, vA, pA))
    (eB : k3.TB.IntersectUV r = (hB, uB, vB, pB)) :
    k3.Intersect r =
      if hA then (true, ⟨pA, k3.TA.normal, sampleImage k3.Image uA vA⟩, 1)
      else if hB then
        (true, ⟨pB, k3.TB.normal, sampleImage k3.Image (1 - vB) (1 - uB)⟩, 2)
      else (false, emptyHit, 2) := by
  simp only [Kite3.Intersect, eA, eB]
  cases hA <;> cases hB <;> simp

/-- C3: `Kite3.Intersect` tests TA first: on a TA hit it samples the texture
at TA's barycentric `(u, v)` and reports test count 1; only if TA misses
does it consult TB, and on a TB hit it remaps `(u, v)` to `(1−v, 1−u)`
before sampling and reports test count 2; if both miss it reports no-hit
with test count 2. -/
theorem kite_intersect_order_remap_counts (k3 : Kite3) (r : R3)
    (hA hB : Bool) (uA vA uB vB : ℚ) (pA pB : P3)
    (eA : k3.TA.IntersectUV r = (hA, uA, vA, pA))
    (eB : k3.TB.IntersectUV r = (hB, uB, vB, pB)) :
    k3.Intersect r =
      if hA then (true, ⟨pA, k3.TA.normal, sampleImage k3.Image uA vA⟩, 1)
      else if hB then
        (true, ⟨pB, k3.TB.normal, sampleImage k3.Image (1 - vB) (1 - uB)⟩, 2)
      else (false, emptyHit, 2) :=
  kite_intersect_cases k3 r hA hB uA vA uB vB pA pB eA eB

/-- Witness for C3: on `kiteEx`, the ray `rayKite` misses TA, hits TB at
`(u,v) = (3/10, 3/10)`, and the kite reports the remapped sample with test
count 2. -/
theorem kite_intersect_order_remap_counts_witness :
    kiteEx.Intersect rayKite =
      (true, ⟨⟨7/10, 3/10, 1⟩, ⟨0, 0, -1⟩, ⟨10, 20, 30, 255⟩⟩, 2) := by
  have h := kite_intersect_order_remap_counts kiteEx rayKite
    false true 0 0 (3/10) (3/10) Origin ⟨7/10, 3/10, 1⟩
    (by norm_num [kiteEx, NewKite3, imgUniform, rayKite, T3.IntersectUV,
      P3.Dot, P3.Cross, P3.Sub, P3.Add, P3.Scale, Epsilon, Origin])
    (by norm_num [kiteEx, NewKite3, imgUniform, rayKite, T3.IntersectUV,
      P3.Dot, P3.Cross, P3.Sub, P3.Add, P3.Scale, Epsilon, Origin])
  simpa [kiteEx, NewKite3, imgUniform, T3.normal, sampleImage, goInt,
    P3.Sub, P3.Add, P3.Cross, P3.Scale] using h

/-- C7 (amended): the sampled texture pixel of a kite hit is obtained by
TRUNCATING `w·u` and `h·v` toward zero (Go's `int(...)` conversion — floor
for the nonnegative `u`, `v` of a hit), offset by the texture bounds
minimum: pixel `(Min.X + int(w·u), Min.Y + int(h·v))`; rounding to nearest
is not used. -/
theorem kite_sample_pixel_truncation (k3 : Kite3) (r : R3)
    (hA hB : Bool) (uA vA uB vB : ℚ) (pA pB : P3)
    (eA : k3.TA.IntersectUV r = (hA, uA, vA, pA))
    (eB : k3.TB.IntersectUV r = (hB, uB, vB, pB)) :
    (k3.Intersect r).2.1.Colour =
      if hA then
        k3.Image.At (k3.Image.minX + goInt (((k3.Image.maxX - k3.Image.minX : ℤ) : ℚ) * uA))
          (k3.Image.minY + goInt (((k3.Image.maxY - k3.Image.minY : ℤ) : ℚ) * vA))
      else if hB then
        k3.Image.At
          (k3.Image.minX + goInt (((k3.Image.maxX - k3.Image.minX : ℤ) : ℚ) * (1 - vB)))
          (k3.Image.minY + goInt (((k3.Image.maxY - k3.Image.minY : ℤ) : ℚ) * (1 - uB)))
      else ⟨0, 0, 0, 0⟩ := by
  rw [kite_intersect_cases k3 r hA hB uA vA uB vB pA pB eA eB]
  cases hA <;> cases hB <;> simp [sampleImage, emptyHit]

/-- The kite whose TA is the `triZ1` triangle, textured with `imgCoord`. -/
def kiteCex : Kite3 := NewKite3 ⟨0, 0, 1⟩ ⟨1, 0, 1⟩ ⟨0, 1, 1⟩ imgCoord

/-- A ray along `+z` through `(1/20, 1/20)`: hits TA at `(u,v)=(9/10,1/20)`. -/
def rayCex : R3 := ⟨⟨1/20, 1/20, 0⟩, ⟨0, 0, 1⟩⟩

/-- Counterexample for C7 as stated: on a TA hit with `(u,v) = (9/10, 1/20)`
and a 2×2-pixel texture (`w = h = 2`), the code samples pixel `(1, 0)`
(truncation of `w·u = 9/5`), while the claimed rounding rule names pixel
`(round(9/5), round(1/10)) = (2, 0)`, whose colour differs. -/
theorem kite_sample_rounding_counterexample :
    kiteCex.TA.IntersectUV rayCex = (true, 9/10, 1/20, ⟨1/20, 1/20, 1⟩) ∧
    (kiteCex.Intersect rayCex).2.1.Colour = ⟨1, 0, 0, 255⟩ ∧
    imgCoord.At (round (((imgCoord.maxX - imgCoord.minX : ℤ) : ℚ) * (9/10)))
        (round (((imgCoord.maxY - imgCoord.minY : ℤ) : ℚ) * (1/20))) = ⟨2, 0, 0, 255⟩ ∧
    (⟨1, 0, 0, 255⟩ : Color) ≠ ⟨2, 0, 0, 255⟩ := by
  refine ⟨?_, ?_, ?_, by simp⟩
  · norm_num [kiteCex, NewKite3, imgCoord, rayCex, T3.IntersectUV,
      P3.Dot, P3.Cross, P3.Sub, P3.Add, P3.Scale, Epsilon, Origin]
  · norm_num [kiteCex, NewKite3, imgCoord, rayCex, Kite3.Intersect,
      T3.IntersectUV, sampleImage, goInt, T3.normal,
      P3.Dot, P3.Cross, P3.Sub, P3.Add, P3.Scale, Epsilon, Origin]
  · norm_num [imgCoord, round_eq]
    rfl

/-- Witness for C7 (amended): on `kiteCex` the ray `rayCex` hits TA with
`(u,v) = (9/10, 1/20)` over a 2×2 texture, and the sampled pixel is the
truncation `(int(9/5), int(1/10)) = (1, 0)`. -/
theorem kite_sample_pixel_truncation_witness :
    (kiteCex.Intersect rayCex).2.1.Colour = ⟨1, 0, 0, 255⟩ := by
  have h := kite_sample_pixel_truncation kiteCex rayCex true false
    (9/10) (1/20) 0 0 ⟨1/20, 1/20, 1⟩ Origin
    (by norm_num [kiteCex, NewKite3, imgCoord, rayCex, T3.IntersectUV,
      P3.Dot, P3.Cross, P3.Sub, P3.Add, P3.Scale, Epsilon, Origin])
    (by norm_num [kiteCex, NewKite3, imgCoord, rayCex, T3.IntersectUV,
      P3.Dot, P3.Cross, P3.Sub, P3.Add, P3.Scale, Epsilon, Origin])
  rw [h]
  norm_num [kiteCex, NewKite3, imgCoord, goInt]

/-! ### C1: triangle intersection characterization -/

/-- Counterexample for C1 as stated: on `triZ1` the ray `rayZ1` hits with
returned barycentrics `(u, v) = (1/5, 1/10)` at position `(1/10, 7/10, 1)`,
but the claimed formula `A + u·(B−A) + v·(C−A)` evaluates to
`(1/5, 1/10, 1)`, a different point (the code anchors the returned
barycentrics at `C`, not `A`). -/
theorem intersectUV_position_counterexample :
    triZ1.IntersectUV rayZ1 = (true, 1/5, 1/10, ⟨1/10, 7/10, 1⟩) ∧
    (triZ1.A.Add ((triZ1.B.Sub triZ1.A).Scale (1/5))).Add
        ((triZ1.C.Sub triZ1.A).Scale (1/10)) = ⟨1/5, 1/10, 1⟩ ∧
    (⟨1/10, 7/10, 1⟩ : P3) ≠ ⟨1/5, 1/10, 1⟩ := by
  refine ⟨?_, ?_, ?_⟩ <;>
    norm_num [triZ1, rayZ1, T3.IntersectUV, P3.mk.injEq,
      P3.Dot, P3.Cross, P3.Sub, P3.Add, P3.Scale, Epsilon, Origin]

/-- C1 (amended): with `e1 = A−C`, `e2 = B−C`, `P = dir×e2`, `det = P·e1`,
`T = origin−C`, `u = (T·P)/det`, `Q = T×e1`, `v = (dir·Q)/det`,
`t = (e2·Q)/det`, the test reports no hit when `|det| < 1e-6`, when `u < 0`
or `u > 1`, when `v < 0` or `u+v > 1`, or when `t ≤ 1e-6`; otherwise it
reports a hit at position `C + u·e1 + v·e2` (the code's anchor is `C`, not
`A`), and every reported hit has `u ≥ 0`, `v ≥ 0` and `u+v ≤ 1`. -/
theorem intersectUV_characterization (t3 : T3) (r : R3)
    (e1 e2 P T Q : P3) (det u v t : ℚ)
    (he1 : e1 = t3.A.Sub t3.C) (he2 : e2 = t3.B.Sub t3.C)
    (hP : P = r.Dir.Cross e2) (hdet : det = P.Dot e1)
    (hT : T = r.At.Sub t3.C) (hu : u = (T.Dot P) * (1 / det))
    (hQ : Q = T.Cross e1) (hv : v = (r.Dir.Dot Q) * (1 / det))
    (ht : t = (e2.Dot Q) * (1 / det)) :
    t3.IntersectUV r =
      (if |det| < Epsilon then (false, 0, 0, Origin)
       else if u < 0 ∨ u > 1 then (false, 0, 0, Origin)
       else if v < 0 ∨ u + v > 1 then (false, 0, 0, Origin)
       else if t > Epsilon then (true, u, v, (t3.C.Add (e1.Scale u)).Add (e2.Scale v))
       else (false, 0, 0, Origin)) ∧
    ((t3.IntersectUV r).1 = true →
      0 ≤ (t3.IntersectUV r).2.1 ∧ 0 ≤ (t3.IntersectUV r).2.2.1 ∧
        (t3.IntersectUV r).2.1 + (t3.IntersectUV r).2.2.1 ≤ 1) := by
  subst he1 he2 hP hdet hT hu hQ hv ht
  refine ⟨IntersectUV_eq t3 r, ?_⟩
  intro hhit
  rw [IntersectUV_eq t3 r] at hhit
  rw [IntersectUV_eq t3 r]
  by_cases h1 : |mtDet t3 r| < Epsilon
  · simp [h1] at hhit
  · by_cases h2 : mtU t3 r < 0 ∨ mtU t3 r > 1
    · simp [h1, h2] at hhit
    · by_cases h3 : mtV t3 r < 0 ∨ mtU t3 r + mtV t3 r > 1
      · simp [h1, h2, h3] at hhit
      · by_cases h4 : mtTpar t3 r > Epsilon
        · rw [if_neg h1, if_neg h2, if_neg h3, if_pos h4]
          push_neg at h2 h3
          exact ⟨h2.1, h3.1, h3.2⟩
        · simp [h1, h2, h3, h4] at hhit

/-- Witness for C1: the characterization applied to `triZ1` and `rayZ1`
yields the hit `(1/5, 1/10)` with the in-triangle bounds. -/
theorem intersectUV_characterization_witness :
    triZ1.IntersectUV rayZ1 = (true, 1/5, 1/10, ⟨1/10, 7/10, 1⟩) ∧
      (0 : ℚ) ≤ 1/5 ∧ (0 : ℚ) ≤ 1/10 ∧ (1/5 : ℚ) + 1/10 ≤ 1 := by
  have h := intersectUV_characterization triZ1 rayZ1 _ _ _ _ _ _ _ _ _
    rfl rfl rfl rfl rfl rfl rfl rfl rfl
  rcases h with ⟨h1, h2⟩
  simp only [triZ1, rayZ1] at h2 ⊢
  norm_num [triZ1, rayZ1, P3.Dot, P3.Cross, P3.Sub, P3.Add, P3.Scale,
    Epsilon, Origin] at h1
  have h3 := h2 (by rw [h1])
  rw [h1] at h3
  refine ⟨h1, ?_⟩
  simpa using h3

/-! ### C8: grid-to-kites indexing -/

lemma flatMap_range_getElem {α : Type} (n : ℕ) :
    ∀ (f : ℕ → List α) (m i j : ℕ),
      (∀ k, k < n → (f k).length = m) → i < n → j < m →
      ((List.range n).flatMap f)[i * m + j]? = (f i)[j]? := by
  induction n with
  | zero => intro f m i j _ hi _; exact absurd hi (Nat.not_lt_zero i)
  | succ n ih =>
    intro f m i j hf hi hj
    rw [List.range_succ_eq_map, List.flatMap_cons, List.flatMap_map]
    have hlen : (f 0).length = m := hf 0 (Nat.succ_pos n)
    cases i with
    | zero =>
      rw [List.getElem?_append, if_pos (by simpa [hlen] using hj)]
      simp
    | succ i =>
      rw [List.getElem?_append, if_neg (by push_neg; rw [hlen]; nlinarith)]
      have hidx : (i + 1) * m + j - (f 0).length = i * m + j := by
        rw [hlen]; ring_nf; omega
      rw [hidx]
      have := ih (fun k => f (k + 1)) m i j (fun k hk => hf (k + 1) (by omega))
        (by omega) hj
      simpa [Function.comp] using this

/-- C8: for a rectangular `numRows × numCols` grid, the kite generated for
cell `(i, j)` is built from `grid[i][j]`,
`grid[(i+1) % numRows][(j+1) % numCols]` and `grid[i][(j+1) % numCols]`:
indices wrap modulo both dimensions, so the last cell references row 0 and
column 0 and the quad mesh closes with no seam. -/
theorem gridToKites_cell_wraps (grid : List (List P3)) (img : Image)
    (numRows numCols i j : ℕ)
    (hrows : grid.length = numRows)
    (hcols : ∀ row ∈ grid, row.length = numCols)
    (hi : i < numRows) (hj : j < numCols) :
    (gridToKites grid img)[i * numCols + j]? =
      some (Item.kite (NewKite3 ((grid.getD i []).getD j Origin)
        ((grid.getD ((i + 1) % numRows) []).getD ((j + 1) % numCols) Origin)
        ((grid.getD i []).getD ((j + 1) % numCols) Origin) img)) := by
  have hne : grid ≠ [] := by
    intro hnil
    rw [hnil] at hrows
    simp at hrows
    omega
  have hhead : (grid.headD []).length = numCols := by
    cases grid with
    | nil => exact absurd rfl hne
    | cons hd tl => exact hcols hd (List.mem_cons_self hd tl)
  have hrow : ∀ k, k < numRows → (grid.getD k []).length = numCols := by
    intro k hk
    have hk' : k < grid.length := by omega
    simp only [List.getD, List.get?_eq_getElem?]
    rw [List.getElem?_eq_getElem hk']
    simp only [Option.getD_some]
    exact hcols _ (List.getElem_mem hk')
  unfold gridToKites
  rw [hrows, hhead]
  rw [flatMap_range_getElem numRows _ numCols i j
    (fun k hk => by simpa using hrow k hk) hi hj]
  rw [List.getElem?_map]
  rw [List.getElem?_range (by rw [hrow i hi]; exact hj)]
  rfl

/-- Witness for C8: a 2×2 grid; the kite of the last cell `(1, 1)` wraps to
row 0 and column 0. -/
theorem gridToKites_cell_wraps_witness :
    (gridToKites [[⟨0,0,0⟩, ⟨1,0,0⟩], [⟨0,1,0⟩, ⟨1,1,0⟩]] imgUniform)[1 * 2 + 1]? =
      some (Item.kite (NewKite3 ⟨1,1,0⟩ ⟨0,0,0⟩ ⟨0,1,0⟩ imgUniform)) := by
  have h := gridToKites_cell_wraps [[⟨0,0,0⟩, ⟨1,0,0⟩], [⟨0,1,0⟩, ⟨1,1,0⟩]]
    imgUniform 2 2 1 1 rfl (by intro row hrow; simp at hrow; rcases hrow with h | h <;> simp [h])
    (by omega) (by omega)
  simpa using h

/-! ### C2: composite nearest-hit aggregation -/

lemma foldl_add_int {α : Type} (g : α → ℤ) :
    ∀ (l : List α) (a : ℤ), l.foldl (fun acc x => acc + g x) a = a + (l.map g).sum
  | [], a => by simp
  | x :: xs, a => by
    simp only [List.foldl_cons, List.map_cons, List.sum_cons]
    rw [foldl_add_int g xs]
    ring

lemma nearestHitStep_le_left (a b : Hit) :
    (nearestHitStep a b).At.lenSq ≤ a.At.lenSq := by
  unfold nearestHitStep
  split_ifs with hc
  · exact le_of_lt hc
  · exact le_refl _

lemma nearestHitStep_le_right (a b : Hit) :
    (nearestHitStep a b).At.lenSq ≤ b.At.lenSq := by
  unfold nearestHitStep
  split_ifs with hc
  · exact le_refl _
  · exact le_of_not_lt hc

lemma nearestFold_mem : ∀ (hs : List Hit) (init : Hit),
    hs.foldl nearestHitStep init = init ∨ hs.foldl nearestHitStep init ∈ hs
  | [], _ => Or.inl rfl
  | h :: t, init => by
    simp only [List.foldl_cons]
    rcases nearestFold_mem t (nearestHitStep init h) with heq | hmem
    · rw [heq]
      by_cases hc : h.At.lenSq < init.At.lenSq
      · right
        simp [nearestHitStep, hc]
      · left
        simp [nearestHitStep, hc]
    · right
      exact List.mem_cons_of_mem h hmem

lemma nearestFold_le_init : ∀ (hs : List Hit) (init : Hit),
    (hs.foldl nearestHitStep init).At.lenSq ≤ init.At.lenSq
  | [], _ => le_refl _
  | h :: t, init => by
    simp only [List.foldl_cons]
    exact le_trans (nearestFold_le_init t _) (nearestHitStep_le_left init h)

lemma nearestFold_le_mem : ∀ (hs : List Hit) (init : Hit) (h : Hit), h ∈ hs →
    (hs.foldl nearestHitStep init).At.lenSq ≤ h.At.lenSq
  | [], _, h, hmem => absurd hmem (List.not_mem_nil h)
  | x :: t, init, h, hmem => by
    simp only [List.foldl_cons]
    rcases List.mem_cons.mp hmem with rfl | hmem'
    · exact le_trans (nearestFold_le_init t _) (nearestHitStep_le_right init h)
    · exact nearestFold_le_mem t _ h hmem'

lemma compCombine_totalTests (rs : List (Bool × Hit × ℤ)) :
    (compCombine rs).2.2 = (rs.map (fun x => x.2.2)).sum := by
  unfold compCombine
  rcases hh : (rs.filter (fun x => x.1)).map (fun x => x.2.1) with _ | ⟨h0, hs⟩ <;>
    simp [hh, foldl_add_int]

lemma compCombine_hit (rs : List (Bool × Hit × ℤ)) (h0 : Hit) (hs : List Hit)
    (hh : (rs.filter (fun x => x.1)).map (fun x => x.2.1) = h0 :: hs) :
    compCombine rs =
      (true, (h0 :: hs).foldl nearestHitStep h0,
        (rs.map (fun x => x.2.2)).sum) := by
  unfold compCombine
  rw [hh]
  simp [foldl_add_int]

/-- C2: a composite (with a non-nil children slice) whose children answer
`rs` returns `compCombine rs`: the test count is the sum of all children's
counts; with no child hit it reports no-hit with that count; otherwise it
reports `true` with a winning hit drawn from the children's hits whose
position has the smallest Euclidean distance (`P3.len`, a distance from the
world origin `(0,0,0)`, not from the ray's origin). -/
theorem compositeIntersect_nearest (cs : List Item) (r : R3)
    (rs : List (Bool × Hit × ℤ))
    (hrs : intersectList cs r = .ok rs) :
    compositeIntersect (some cs) r = .ok (compCombine rs) ∧
    (compCombine rs).2.2 = (rs.map (fun x => x.2.2)).sum ∧
    ((rs.filter (fun x => x.1)).map (fun x => x.2.1) = [] →
      compCombine rs = (false, emptyHit, (rs.map (fun x => x.2.2)).sum)) ∧
    ∀ h0 hs, (rs.filter (fun x => x.1)).map (fun x => x.2.1) = h0 :: hs →
      (compCombine rs).1 = true ∧
      (compCombine rs).2.1 ∈ h0 :: hs ∧
      ∀ h ∈ h0 :: hs, (compCombine rs).2.1.At.len ≤ h.At.len := by
  refine ⟨?_, compCombine_totalTests rs, ?_, ?_⟩
  · show Except.map compCombine (intersectList cs r) = .ok (compCombine rs)
    rw [hrs]
    rfl
  · intro hh
    unfold compCombine
    rw [hh]
    simp [foldl_add_int]
  · intro h0 hs hh
    rw [compCombine_hit rs h0 hs hh]
    refine ⟨rfl, ?_, ?_⟩
    · rcases nearestFold_mem (h0 :: hs) h0 with heq | hmem
      · rw [heq]
        exact List.mem_cons_self h0 hs
      · exact hmem
    · intro h hmem
      exact P3.len_le_len _ _ (nearestFold_le_mem (h0 :: hs) h0 h hmem)

/-- Two triangles crossed by the `+z` axis ray, hitting at `(0,0,5)` and
`(0,0,2)` respectively. -/
def triFar : T3 := ⟨⟨-1, -1, 5⟩, ⟨3, -1, 5⟩, ⟨-1, 3, 5⟩⟩

def triNear : T3 := ⟨⟨-1, -1, 2⟩, ⟨3, -1, 2⟩, ⟨-1, 3, 2⟩⟩

/-- Witness for C2: both triangles hit; the composite returns the hit at
`(0,0,2)` — the one nearer the world origin — with test count `1 + 1`. -/
theorem compositeIntersect_nearest_witness :
    compositeIntersect (some [Item.tri triFar, Item.tri triNear])
        ⟨⟨0, 0, 0⟩, ⟨0, 0, 1⟩⟩ =
      .ok (true, ⟨⟨0, 0, 2⟩, ⟨0, 0, 16⟩, ⟨128, 0, 0, 255⟩⟩, 2) := by
  have h := compositeIntersect_nearest [Item.tri triFar, Item.tri triNear]
    ⟨⟨0, 0, 0⟩, ⟨0, 0, 1⟩⟩
    [(true, ⟨⟨0, 0, 5⟩, ⟨0, 0, 16⟩, ⟨128, 0, 0, 255⟩⟩, 1),
     (true, ⟨⟨0, 0, 2⟩, ⟨0, 0, 16⟩, ⟨128, 0, 0, 255⟩⟩, 1)]
    (by norm_num [intersectList_cons, intersectList_nil, Item.intersect_tri,
      except_bind_ok, T3.Intersect, T3.IntersectUV, T3.normal, triFar, triNear,
      P3.Dot, P3.Cross, P3.Sub, P3.Add, P3.Scale, Epsilon, Origin])
  rw [h.1]
  norm_num [compCombine, nearestHitStep, foldl_add_int, P3.lenSq, emptyHit]

/-! ### C4: illumination -/

lemma foldl_add_real {α : Type} (g : α → ℝ) :
    ∀ (l : List α) (x : ℝ), l.foldl (fun acc y => acc + g y) x = x + (l.map g).sum
  | [], x => by simp
  | y :: ys, x => by
    simp only [List.foldl_cons, List.map_cons, List.sum_cons]
    rw [foldl_add_real g ys]
    ring

lemma P3.len_nonneg (p : P3) : 0 ≤ p.len := Real.sqrt_nonneg _

lemma scale_neg_one_len (n : P3) : (n.Scale (-1)).len = n.len := by
  unfold P3.len
  have h : (n.Scale (-1)).lenSq = n.lenSq := by
    unfold P3.lenSq P3.Scale
    ring
  rw [h]

lemma sub_swap_len (p q : P3) : (p.Sub q).len = (q.Sub p).len := by
  unfold P3.len
  have h : (p.Sub q).lenSq = (q.Sub p).lenSq := by
    unfold P3.lenSq P3.Sub
    ring
  rw [h]

/-- The per-light term the code accumulates equals the spec's
`|dot(normal, lightVec)| / (|normal| · |lightVec|)` with `lightVec` taken
from the hit point to the light. -/
lemma incidence_term_eq (a n : P3) (light : Light) :
    |(((a.Sub light.At).Dot n : ℚ) : ℝ) / (a.Sub light.At).len / n.len| =
      |((n.Dot (light.At.Sub a) : ℚ) : ℝ)| / (n.len * (light.At.Sub a).len) := by
  have hdot : ((a.Sub light.At).Dot n : ℚ) = -(n.Dot (light.At.Sub a)) := by
    unfold P3.Dot P3.Sub
    ring
  rw [hdot, sub_swap_len a light.At]
  push_cast
  rw [abs_div, abs_div, abs_neg]
  rw [abs_of_nonneg ((light.At.Sub a).len_nonneg), abs_of_nonneg n.len_nonneg]
  rw [div_div, mul_comm]

lemma illum_fold_backface (a n : P3) (lights : List Light) (x : ℝ) :
    lights.foldl (fun acc light =>
        acc + |(((a.Sub light.At).Dot (n.Scale (-1)) : ℚ) : ℝ) /
          (a.Sub light.At).len / (n.Scale (-1)).len|) x =
      lights.foldl (fun acc light =>
        acc + |(((a.Sub light.At).Dot n : ℚ) : ℝ) /
          (a.Sub light.At).len / n.len|) x := by
  congr 1
  funext acc light
  have hdot : ((a.Sub light.At).Dot (n.Scale (-1)) : ℚ) =
      -((a.Sub light.At).Dot n) := by
    unfold P3.Dot P3.Scale
    ring
  rw [hdot, scale_neg_one_len]
  push_cast
  rw [neg_div, neg_div, abs_neg]

/-- C4: for a scene with at least one light, `illumination` (i) lights a
back-facing surface (normal negated) identically to a front-facing one, and
(ii) averages the per-light incidence terms
`|dot(normal, lightVec)| / (|normal|·|lightVec|)` over all lights by
dividing by the light count, then scales each 16-bit R/G/B channel of the
hit colour by that average into the 8-bit range, with alpha fixed opaque. -/
theorem illumination_backface_average_scale (ch : Option (List Item)) (vd sd : ℚ)
    (l : Light) (ls : List Light) (a n : P3) (c : Color) :
    Scene.illumination ⟨ch, vd, sd, l :: ls⟩ ⟨a, n.Scale (-1), c⟩ =
      Scene.illumination ⟨ch, vd, sd, l :: ls⟩ ⟨a, n, c⟩ ∧
    Scene.illumination ⟨ch, vd, sd, l :: ls⟩ ⟨a, n, c⟩ =
      ⟨(realTrunc ((c.rgba.1 : ℝ) *
          (((l :: ls).map (fun light =>
              |((n.Dot (light.At.Sub a) : ℚ) : ℝ)| /
                (n.len * (light.At.Sub a).len))).sum /
            ((l :: ls).length : ℝ)) / 0xffff * 256)).toNat,
       (realTrunc ((c.rgba.2.1 : ℝ) *
          (((l :: ls).map (fun light =>
              |((n.Dot (light.At.Sub a) : ℚ) : ℝ)| /
                (n.len * (light.At.Sub a).len))).sum /
            ((l :: ls).length : ℝ)) / 0xffff * 256)).toNat,
       (realTrunc ((c.rgba.2.2.1 : ℝ) *
          (((l :: ls).map (fun light =>
              |((n.Dot (light.At.Sub a) : ℚ) : ℝ)| /
                (n.len * (light.At.Sub a).len))).sum /
            ((l :: ls).length : ℝ)) / 0xffff * 256)).toNat, 255⟩ := by
  constructor
  · unfold Scene.illumination
    simp only
    rw [illum_fold_backface]
  · unfold Scene.illumination
    simp only
    rw [foldl_add_real
      (fun light => |(((a.Sub light.At).Dot n : ℚ) : ℝ) /
        (a.Sub light.At).len / n.len|) (l :: ls) 0]
    rw [zero_add]
    have hmap : (l :: ls).map (fun light =>
        |(((a.Sub light.At).Dot n : ℚ) : ℝ) / (a.Sub light.At).len / n.len|) =
        (l :: ls).map (fun light =>
          |((n.Dot (light.At.Sub a) : ℚ) : ℝ)| /
            (n.len * (light.At.Sub a).len)) := by
      apply List.map_congr_left
      intro light _
      exact incidence_term_eq a n light
    rw [hmap]

/-! ### C9: the two vertex-order variants agree -/

lemma det_eq (t3 : T3) (r : R3) : maDet t3 r = mtDet t3 r := by
  simp only [maDet, mtDet, mtP, mtE1, mtE2, P3.Dot, P3.Cross, P3.Sub]
  ring

lemma maU_eq_mtV (t3 : T3) (r : R3) : maU t3 r = mtV t3 r := by
  unfold maU mtV
  have hnum : (r.At.Sub t3.A).Dot (r.Dir.Cross (t3.C.Sub t3.A)) =
      r.Dir.Dot (mtQ t3 r) := by
    simp only [mtQ, mtT, mtE1, P3.Dot, P3.Cross, P3.Sub]
    ring
  rw [hnum, det_eq]

lemma maTpar_eq_mtTpar (t3 : T3) (r : R3) : maTpar t3 r = mtTpar t3 r := by
  unfold maTpar mtTpar
  have hnum : (t3.C.Sub t3.A).Dot ((r.At.Sub t3.A).Cross (t3.B.Sub t3.A)) =
      (mtE2 t3).Dot (mtQ t3 r) := by
    simp only [mtQ, mtT, mtE1, mtE2, P3.Dot, P3.Cross, P3.Sub]
    ring
  rw [hnum, det_eq]

lemma maV_eq (t3 : T3) (r : R3) (hd : mtDet t3 r ≠ 0) :
    maV t3 r = 1 - mtU t3 r - mtV t3 r := by
  have hnum : r.Dir.Dot ((r.At.Sub t3.A).Cross (t3.B.Sub t3.A)) =
      mtDet t3 r - (mtT t3 r).Dot (mtP t3 r) - r.Dir.Dot (mtQ t3 r) := by
    simp only [mtDet, mtP, mtT, mtQ, mtE1, mtE2, P3.Dot, P3.Cross, P3.Sub]
    ring
  unfold maV
  rw [det_eq, hnum]
  unfold mtU mtV
  field_simp

lemma chain_fst_iff (d u v t : ℚ) (p : P3) :
    ((if |d| < Epsilon then ((false, 0, 0, Origin) : Bool × ℚ × ℚ × P3)
      else if u < 0 ∨ u > 1 then (false, 0, 0, Origin)
      else if v < 0 ∨ u + v > 1 then (false, 0, 0, Origin)
      else if t > Epsilon then (true, u, v, p)
      else (false, 0, 0, Origin)).1 = true) ↔
      (¬(|d| < Epsilon) ∧ ¬(u < 0 ∨ u > 1) ∧ ¬(v < 0 ∨ u + v > 1) ∧ t > Epsilon) := by
  split_ifs with h1 h2 h3 h4 <;> simp_all

lemma accept_iff (u v : ℚ) :
    (¬(v < 0 ∨ v > 1) ∧ ¬(1 - u - v < 0 ∨ v + (1 - u - v) > 1)) ↔
      (¬(u < 0 ∨ u > 1) ∧ ¬(v < 0 ∨ u + v > 1)) := by
  push_neg
  constructor
  · rintro ⟨⟨h1, h2⟩, h3, h4⟩
    exact ⟨⟨by linarith, by linarith⟩, h1, by linarith⟩
  · rintro ⟨⟨h1, h2⟩, h3, h4⟩
    exact ⟨⟨h3, by linarith⟩, by linarith, by linarith⟩

/-- C9: the repository's vertex-order variant of the triangle test (edges
relative to `C`) and the spec's variant relative to `A` accept exactly the
same rays and, on a hit, return the same position (exact arithmetic). -/
theorem triangle_variants_equivalent (t3 : T3) (r : R3) :
    (t3.IntersectUVRelA r).1 = (t3.IntersectUV r).1 ∧
    ((t3.IntersectUV r).1 = true →
      (t3.IntersectUVRelA r).2.2.2 = (t3.IntersectUV r).2.2.2) := by
  by_cases hd : |mtDet t3 r| < Epsilon
  · constructor
    · rw [IntersectUVRelA_eq, IntersectUV_eq, det_eq, if_pos hd, if_pos hd]
    · intro hhit
      rw [IntersectUV_eq, if_pos hd] at hhit
      simp at hhit
  · have hdet0 : mtDet t3 r ≠ 0 := by
      intro h0
      rw [h0] at hd
      exact hd (by norm_num [Epsilon])
    have hU := maU_eq_mtV t3 r
    have hV := maV_eq t3 r hdet0
    have hT := maTpar_eq_mtTpar t3 r
    have hdA : ¬(|maDet t3 r| < Epsilon) := by
      rw [det_eq]
      exact hd
    by_cases hacc : ¬(mtU t3 r < 0 ∨ mtU t3 r > 1) ∧
        ¬(mtV t3 r < 0 ∨ mtU t3 r + mtV t3 r > 1) ∧ mtTpar t3 r > Epsilon
    · obtain ⟨h2, h3, h4⟩ := hacc
      have hA1 : ¬(maU t3 r < 0 ∨ maU t3 r > 1) := by
        rw [hU]
        exact ((accept_iff (mtU t3 r) (mtV t3 r)).mpr ⟨h2, h3⟩).1
      have hA2 : ¬(maV t3 r < 0 ∨ maU t3 r + maV t3 r > 1) := by
        rw [hU, hV]
        exact ((accept_iff (mtU t3 r) (mtV t3 r)).mpr ⟨h2, h3⟩).2
      have hA4 : maTpar t3 r > Epsilon := by
        rw [hT]
        exact h4
      constructor
      · rw [IntersectUVRelA_eq, IntersectUV_eq,
          if_neg hdA, if_neg hA1, if_neg hA2, if_pos hA4,
          if_neg hd, if_neg h2, if_neg h3, if_pos h4]
      · intro _
        rw [IntersectUVRelA_eq, IntersectUV_eq,
          if_neg hdA, if_neg hA1, if_neg hA2, if_pos hA4,
          if_neg hd, if_neg h2, if_neg h3, if_pos h4]
        show (t3.A.Add ((t3.B.Sub t3.A).Scale (maU t3 r))).Add
            ((t3.C.Sub t3.A).Scale (maV t3 r)) =
          (t3.C.Add ((mtE1 t3).Scale (mtU t3 r))).Add ((mtE2 t3).Scale (mtV t3 r))
        rw [hU, hV]
        unfold mtE1 mtE2 P3.Add P3.Scale P3.Sub
        simp only [P3.mk.injEq]
        refine ⟨by ring, by ring, by ring⟩
    · have hCfalse : (t3.IntersectUV r).1 = false := by
        rw [Bool.eq_false_iff]
        intro hhit
        rw [IntersectUV_eq, chain_fst_iff] at hhit
        exact hacc ⟨hhit.2.1, hhit.2.2.1, hhit.2.2.2⟩
      have hAfalse : (t3.IntersectUVRelA r).1 = false := by
        rw [Bool.eq_false_iff]
        intro hhit
        rw [IntersectUVRelA_eq, chain_fst_iff] at hhit
        obtain ⟨_, c2, c3, c4⟩ := hhit
        rw [hU] at c2
        rw [hU, hV] at c3
        rw [hT] at c4
        have hc := (accept_iff (mtU t3 r) (mtV t3 r)).mp ⟨c2, c3⟩
        exact hacc ⟨hc.1, hc.2, c4⟩
      constructor
      · rw [hCfalse, hAfalse]
      · intro hhit
        rw [hCfalse] at hhit
        cases hhit

/-- Witness for C9: on `triZ1` and `rayZ1` the code's variant hits, and the
spec's A-anchored variant returns the same position `(1/10, 7/10, 1)`. -/
theorem triangle_variants_equivalent_witness :
    (triZ1.IntersectUVRelA rayZ1).1 = (triZ1.IntersectUV rayZ1).1 ∧
      (triZ1.IntersectUVRelA rayZ1).2.2.2 = (triZ1.IntersectUV rayZ1).2.2.2 := by
  have h := triangle_variants_equivalent triZ1 rayZ1
  refine ⟨h.1, h.2 ?_⟩
  norm_num [triZ1, rayZ1, T3.IntersectUV, P3.Dot, P3.Cross, P3.Sub, P3.Add,
    P3.Scale, Epsilon, Origin]

end RT
